import Mathlib

/-!
Verification development for the beets-subsonic plugin
(`beetsplug/subsonic.py`).  The definitions below are a shallow embedding
of the plugin's identity-resolution engine (`get_song_id` and its
helpers), its transport layer (`send_request`), its rating translator
(`transform_rating`), and its three batch operations
(`subsonic_get_ids`, `subsonic_add_rating`, `subsonic_scrobble`).
The remote server is modelled as an oracle mapping each request issued by
the plugin to a `ServerResponse`.
-/

namespace Subsonic

/-- A song record as returned inside `searchResult3.song` or `album.song`
of a Subsonic JSON response: the code reads `id`, `title`, and (for
logging only) `artist` and `album`. -/
structure Song where
  id : String
  title : String
  artist : String
  album : String
deriving DecidableEq, Repr

/-- An album record as returned inside `searchResult3.album`:
the code reads `id` and `name`. -/
structure Album where
  id : String
  name : String
deriving DecidableEq, Repr

/-- The `searchResult3` object of a search response.  A field holds
`none` when the corresponding JSON key (`song` / `album`) is absent. -/
structure SearchResult3 where
  song : Option (List Song)
  album : Option (List Album)
deriving DecidableEq, Repr

/-- The `album` object of a `getAlbum` response; `song = none` models an
absent `song` key. -/
structure AlbumData where
  song : Option (List Song)
deriving DecidableEq, Repr

/-- The payload carried by a successful (`status == "ok"`) envelope. -/
inductive Body where
  | search (r : SearchResult3)
  | album (d : AlbumData)
  | other
deriving DecidableEq, Repr

/-- Outcome of one HTTP round trip, as distinguished by `send_request`
(lines 193-224): a `requests` exception (including non-2xx via
`raise_for_status`), a non-JSON body, a JSON body missing the
`subsonic-response` key, a failed envelope with `(code, message)`
(the code is a string: the code compares `str(error_code) == "70"`),
or an ok envelope with a payload. -/
inductive ServerResponse where
  | requestError
  | invalidJson
  | missingEnvelope
  | failed (code message : String)
  | ok (body : Body)
deriving DecidableEq, Repr

/-- Log severities used by the plugin's logger calls. -/
inductive Severity where
  | debug
  | info
  | warning
  | error
deriving DecidableEq, Repr

/-- Numeric rank of a severity, for comparing levels. -/
def sevRank : Severity → Nat
  | .debug => 0
  | .info => 1
  | .warning => 2
  | .error => 3

/-- `send_request` (lines 193-224): returns the decoded JSON on an ok
envelope and `None` otherwise, logging an error for every failure except
remote error code `"70"` ("data not found"), which is logged at warning
severity.  The second component lists the severities of the log calls
made on the error paths. -/
def send_request (r : ServerResponse) : Option Body × List Severity :=
  match r with
  | .requestError => (none, [.error])
  | .invalidJson => (none, [.error])
  | .missingEnvelope => (none, [.error])
  | .failed code _message =>
      if code = "70" then (none, [.warning]) else (none, [.error])
  | .ok b => (some b, [])

/-- A request issued by the plugin, identified by its endpoint and the
non-credential query parameters the code merges into the payload:
`search3` carries `query` plus `songCount`/`albumCount`, `getAlbum`
carries `id`.  The authentication payload (shared by every request of
one `get_song_id` run) is not part of the request key. -/
inductive Request where
  | search3 (query : String) (songCount albumCount : Option Nat)
  | getAlbum (id : String)
deriving DecidableEq, Repr

/-- The body (`None` or decoded JSON) that the plugin sees for a request
under a given server oracle. -/
def body (net : Request → ServerResponse) (r : Request) : Option Body :=
  (send_request (net r)).1

/-- A beets library item as read by the plugin: `title`, `artist`,
`album` strings; `subsonic_id = none` models `hasattr(item,
"subsonic_id")` being false, `some v` models the attribute present with
value `v` (which is itself `none` when a failed resolution stored
`None`); `plex_lastviewedat` is the optional scrobble timestamp. -/
structure Item where
  title : String
  artist : String
  album : String
  subsonic_id : Option (Option String) := none
  plex_lastviewedat : Option ℚ := none
deriving DecidableEq, Repr

/-- Python `str.lower()`, modelled character-wise. -/
def pyLower (s : String) : String := ⟨s.toList.map Char.toLower⟩

/-- Characters removed by Python `str.strip()` with no argument. -/
def stripList (l : List Char) : List Char :=
  ((l.dropWhile Char.isWhitespace).reverse.dropWhile Char.isWhitespace).reverse

/-- Python `str.strip()`: remove leading and trailing whitespace. -/
def pyStrip (s : String) : String := ⟨stripList s.toList⟩

/-- Python's substring operator `pat in hay` on strings, modelled as
contiguous-sublist search over the character lists. -/
def listPrefix : List Char → List Char → Bool
  | [], _ => true
  | _ :: _, [] => false
  | a :: as, b :: bs => a == b && listPrefix as bs

/-- Contiguous occurrence of `pat` inside `hay` (Python `pat in hay`). -/
def listInfix (pat : List Char) : List Char → Bool
  | [] => pat.isEmpty
  | b :: bs => listPrefix pat (b :: bs) || listInfix pat bs

/-- Python `pat in hay` for strings. -/
def pyIn (pat hay : String) : Bool := listInfix pat.toList hay.toList

/-- Python `s.split(",")[0]`: the characters before the first comma. -/
def pySplitComma (s : String) : String :=
  ⟨s.toList.takeWhile (fun c => c ≠ ',')⟩

/-- Artist cleanup at line 280:
`item.artist.split(",")[0].strip() if "," in item.artist else item.artist`. -/
def normalizeArtist (artist : String) : String :=
  if pyIn "," artist then pyStrip (pySplitComma artist) else artist

/-- The ordered query list built at lines 283-289 of `get_song_id`:
title, quoted title, title + album, artist + title, album. -/
def search_strategies (item : Item) : List String :=
  let artist := normalizeArtist item.artist
  [ pyStrip item.title
  , "\"" ++ pyStrip item.title ++ "\""
  , pyStrip item.title ++ " " ++ pyStrip item.album
  , pyStrip artist ++ " " ++ pyStrip item.title
  , pyStrip item.album ]

/-- The search request one strategy issues:
`{**payload, "query": query, "songCount": 20}` (line 298). -/
def mkSearchReq (q : String) : Request := .search3 q (some 20) none

/-- Song list the strategy loop iterates over for one query: `none` when
`send_request` returned `None` (`if not json: continue`, line 301), when
the ok payload has no `searchResult3` object, or when `"song" not in
search_result` (line 305). -/
def songsForQuery (net : Request → ServerResponse) (q : String) :
    Option (List Song) :=
  match body net (mkSearchReq q) with
  | none => none
  | some (.search r) => r.song
  | some _ => none

/-- Exact-match predicate of line 314:
`item.title.lower() == song["title"].lower()` (no trimming). -/
def exactMatch (title : String) (s : Song) : Bool :=
  pyLower title == pyLower s.title

/-- The inner result loop (lines 310-320): append each song to the
candidate pool, returning the first song whose title matches exactly.
Yields the short-circuit result and the songs appended to the pool. -/
def scanSongs (title : String) : List Song → Option String × List Song
  | [] => (none, [])
  | s :: rest =>
    if exactMatch title s then (some s.id, [s])
    else
      let r := scanSongs title rest
      (r.1, s :: r.2)

/-- The strategy cascade (lines 294-320): issue each strategy's search
in order, accumulate `all_potential_matches`, and short-circuit on the
first exact title match.  Returns (exact-match result, accumulated pool,
requests issued). -/
def exactPass (net : Request → ServerResponse) (title : String) :
    List String → Option String × List Song × List Request
  | [] => (none, [], [])
  | q :: qs =>
    match songsForQuery net q with
    | none =>
      let r := exactPass net title qs
      (r.1, r.2.1, mkSearchReq q :: r.2.2)
    | some songs =>
      match scanSongs title songs with
      | (some i, _) => (some i, [], [mkSearchReq q])
      | (none, scanned) =>
        let r := exactPass net title qs
        (r.1, scanned ++ r.2.1, mkSearchReq q :: r.2.2)

/-- First exact hit for a single strategy query, or `none`. -/
def exactHit (net : Request → ServerResponse) (title q : String) :
    Option String :=
  match songsForQuery net q with
  | none => none
  | some songs => (scanSongs title songs).1

/-- Lenient-match predicate of lines 328-332: normalize both titles with
`.lower().strip()` and test substring containment in either direction. -/
def lenientMatch (title : String) (s : Song) : Bool :=
  let t := pyStrip (pyLower title)
  let st := pyStrip (pyLower s.title)
  pyIn t st || pyIn st t

/-- Python truthiness of the optional id strings tested by
`if album_id:` / `if song_id:` (an empty string is falsy). -/
def pyTruthy : Option String → Bool
  | none => false
  | some s => !s.isEmpty

/-- Album list seen by `get_album_id_by_name` for one query (`none` when
the request failed, the payload has no `searchResult3`, or
`"album" not in search_result`, lines 363-368). -/
def albumsForQuery (net : Request → ServerResponse) (q : String) :
    Option (List Album) :=
  match body net (.search3 q none (some 10)) with
  | none => none
  | some (.search r) => r.album
  | some _ => none

/-- Song list of an album as seen by `find_song_in_album` (`none` when
the request failed, the payload has no `album` object, or
`"song" not in album_data`, lines 383-390). -/
def albumSongs (net : Request → ServerResponse) (aid : String) :
    Option (List Song) :=
  match body net (.getAlbum aid) with
  | none => none
  | some (.album d) => d.song
  | some _ => none

/-- `get_album_id_by_name` (lines 355-375): search `search3` with
`{query: album_name, albumCount: 10}` and return the id of the first
album whose name contains the album name case-insensitively.  The
`artist_name` argument is accepted but never used, exactly as in the
source.  Also returns the request issued. -/
def get_album_id_by_name (net : Request → ServerResponse)
    (album_name artist_name : String) : Option String × List Request :=
  ((match albumsForQuery net album_name with
    | none => none
    | some albums =>
        (albums.find? (fun a => pyIn (pyLower album_name) (pyLower a.name))).map
          (fun a => a.id)),
   [Request.search3 album_name none (some 10)])

/-- `find_song_in_album` (lines 377-397): fetch `getAlbum` for the id and
return the id of the first song whose title contains `song_title`
case-insensitively.  Also returns the request issued. -/
def find_song_in_album (net : Request → ServerResponse)
    (album_id song_title : String) : Option String × List Request :=
  ((match albumSongs net album_id with
    | none => none
    | some songs =>
        (songs.find? (fun s => pyIn (pyLower song_title) (pyLower s.title))).map
          (fun s => s.id)),
   [Request.getAlbum album_id])

/-- The album-fallback tail of `get_song_id` (lines 340-353):
`album_id = get_album_id_by_name(...); if album_id: song_id =
find_song_in_album(...); if song_id: return song_id` — otherwise fall
through to `return None`.  Truthiness of the ids follows Python. -/
def album_fallback (net : Request → ServerResponse) (item : Item) :
    Option String × List Request :=
  let artist := normalizeArtist item.artist
  let r1 := get_album_id_by_name net item.album artist
  if pyTruthy r1.1 then
    let r2 := find_song_in_album net (r1.1.getD "") item.title
    (if pyTruthy r2.1 then r2.1 else none, r1.2 ++ r2.2)
  else (none, r1.2)

/-- `get_song_id` (lines 270-353): exact-match cascade over the five
strategies, then a lenient pass over the accumulated candidates, then
the album fallback.  Returns the resolved id (or `none`) together with
the list of requests issued, in order. -/
def get_song_id (net : Request → ServerResponse) (item : Item) :
    Option String × List Request :=
  match exactPass net item.title (search_strategies item) with
  | (some i, _, reqs) => (some i, reqs)
  | (none, pool, reqs) =>
    match pool.find? (fun s => lenientMatch item.title s) with
    | some s => (some s.id, reqs)
    | none =>
      let fb := album_fallback net item
      (fb.1, reqs ++ fb.2)

/-- Pool contribution of one strategy (empty when the strategy was
skipped by `continue`). -/
def poolOf (net : Request → ServerResponse) (q : String) : List Song :=
  (songsForQuery net q).getD []

/-- The full `all_potential_matches` pool accumulated when no strategy
short-circuits: strategy order, then result order. -/
def candidatePool (net : Request → ServerResponse) (item : Item) :
    List Song :=
  (search_strategies item).flatMap (poolOf net)

/-! ## Rating translation -/

/-- Python's built-in `round` on an exact value: round half to even. -/
def pythonRound (q : ℚ) : ℤ :=
  let f := ⌊q⌋
  let frac := q - (f : ℚ)
  if frac < 1/2 then f
  else if 1/2 < frac then f + 1
  else if f % 2 = 0 then f else f + 1

/-- Python's `int()` on a numeric value: truncation toward zero. -/
def pyInt (q : ℚ) : ℤ := if 0 ≤ q then ⌊q⌋ else ⌈q⌉

/-- `transform_rating` (lines 450-469): `round(rating / 2)` for
`plex_userrating`, the five `<`-thresholds 16.66 / 33.33 / 50 / 66.66 /
83.33 for `spotify_track_popularity`, and `int(rating)` otherwise. -/
def transform_rating (rating : ℚ) (rating_field : String) : ℤ :=
  if rating_field = "plex_userrating" then pythonRound (rating / 2)
  else if rating_field = "spotify_track_popularity" then
    if rating < 1666/100 then 0
    else if rating < 3333/100 then 1
    else if rating < 50 then 2
    else if rating < 6666/100 then 3
    else if rating < 8333/100 then 4
    else 5
  else pyInt rating

/-! ## Batch operations -/

/-- `subsonic_get_ids` (lines 254-268): for each item in order, skip when
`not force and hasattr(item, "subsonic_id")`; otherwise submit
`get_song_id` and immediately block on `future.result()`, store the
result (even `None`) into `item.subsonic_id`, and continue.  Returns the
updated items and the concatenated list of network requests issued. -/
def subsonic_get_ids (net : Request → ServerResponse)
    (items : List Item) (force : Bool) : List Item × List Request :=
  match items with
  | [] => ([], [])
  | it :: rest =>
    let r := subsonic_get_ids net rest force
    if !force && it.subsonic_id.isSome then (it :: r.1, r.2)
    else
      let g := get_song_id net it
      ({ it with subsonic_id := some g.1 } :: r.1, g.2 ++ r.2)

/-! ### Authentication-call accounting

`authenticate` (lines 164-191) builds a fresh credential (token mode
salts the password with a new 6-character random salt) on every call.
The definitions below count, directly from the source, how many times
each operation invokes it. -/

/-- `get_song_id` calls `self.authenticate()` exactly once, at entry
(line 275); the resulting payload is reused by every strategy search and
by the album fallback of that same call. -/
def get_song_id_authCalls : Nat := 1

/-- `subsonic_get_ids` (lines 254-268) contains no `authenticate` call of
its own; every non-skipped item runs `get_song_id`, which authenticates
once.  An item is skipped when `not force and hasattr(item,
"subsonic_id")`. -/
def subsonic_get_ids_authCalls (items : List Item) (force : Bool) : Nat :=
  (items.map (fun it =>
    if !force && it.subsonic_id.isSome then 0 else get_song_id_authCalls)).sum

/-- The value of `getattr(item, "subsonic_id", None)`: `None` both when
the attribute is absent and when it stores `None`. -/
def flexGetId (it : Item) : Option String :=
  match it.subsonic_id with
  | some v => v
  | none => none

/-- `update_rating` (lines 399-448): `getattr(item, "subsonic_id", None)`
yields `None` both when the attribute is absent and when it stores
`None`; in that case the item's id is fetched via `get_song_id`, which
authenticates once.  Otherwise the shared payload is used directly. -/
def update_rating_authCalls (it : Item) : Nat :=
  match flexGetId it with
  | some _ => 0
  | none => get_song_id_authCalls

/-- `subsonic_add_rating` (lines 471-487) calls `authenticate` once up
front (line 473), then runs `update_rating` per item. -/
def subsonic_add_rating_authCalls (items : List Item) : Nat :=
  1 + (items.map update_rating_authCalls).sum

/-- `scrobble` (lines 503-536): when `hasattr(item, "subsonic_id")` is
false the id is fetched via `get_song_id`, which authenticates once. -/
def scrobble_authCalls (it : Item) : Nat :=
  match it.subsonic_id with
  | some _ => 0
  | none => get_song_id_authCalls

/-- `subsonic_scrobble` (lines 489-501) calls `authenticate` once up
front (line 491), then runs `scrobble` per item. -/
def subsonic_scrobble_authCalls (items : List Item) : Nat :=
  1 + (items.map scrobble_authCalls).sum

/-! ## Scrobbling -/

/-- The query parameters of one `scrobble` request
(lines 523-528): `id` (possibly `None`) and `time` in milliseconds. -/
structure ScrobbleRequest where
  id : Option String
  time : ℤ
deriving DecidableEq, Repr

/-- `scrobble` (lines 503-536): resolve the id via `get_song_id` when the
`subsonic_id` attribute is absent (keeping whatever it returns, possibly
`None`); accessing `item.plex_lastviewedat` raises `AttributeError` when
the timestamp is absent, skipping the item before any request is sent;
otherwise the request is sent with `time = int(timestamp) * 1000`.
Returns the request sent, or `none` when the item was skipped. -/
def scrobble (net : Request → ServerResponse) (item : Item) :
    Option ScrobbleRequest :=
  let id : Option String :=
    match item.subsonic_id with
    | none => (get_song_id net item).1
    | some v => v
  match item.plex_lastviewedat with
  | none => none
  | some t => some ⟨id, pyInt t * 1000⟩

/-! ## Concurrency structure of the batch operations

The per-item work of a batch is modelled as start/finish events of
numbered tasks.  `ThreadPoolExecutor(max_workers = w)` semantics: a task
may start only while fewer than `w` tasks are running.  The traces of
`subsonic_get_ids` and `subsonic_scrobble` are fixed by their code shape;
`subsonic_add_rating` submits all futures before waiting, so any
schedule respecting the pool bound is possible. -/

/-- `MAX_WORKERS = 3` (line 22). -/
def MAX_WORKERS : Nat := 3

/-- The three orchestrated batch operations. -/
inductive BatchOp where
  | resolveIds
  | pushRatings
  | pushScrobbles
deriving DecidableEq, Repr

/-- Worker pool entered by each batch operation, read off the source:
`subsonic_get_ids` (line 257) and `subsonic_add_rating` (line 478) enter
`ThreadPoolExecutor(max_workers=self.MAX_WORKERS)`; `subsonic_scrobble`
(lines 489-501) creates no executor and calls `scrobble` inline. -/
def poolWidth : BatchOp → Option Nat
  | .resolveIds => some MAX_WORKERS
  | .pushRatings => some MAX_WORKERS
  | .pushScrobbles => none

/-- A start or finish event of task `i`. -/
inductive Ev where
  | start (i : Nat)
  | finish (i : Nat)
deriving DecidableEq, Repr

/-- One scheduler step over the state (running tasks, completed tasks):
a task starts only if it is fresh and a worker is free, and finishes
only if it is running. -/
def poolStep (w : Nat) (st : List Nat × List Nat) :
    Ev → Option (List Nat × List Nat)
  | .start i =>
    if i ∈ st.1 ∨ i ∈ st.2 then none
    else if st.1.length + 1 ≤ w then some (i :: st.1, st.2) else none
  | .finish i =>
    if i ∈ st.1 then some (st.1.erase i, i :: st.2) else none

/-- Run a trace through the pool scheduler. -/
def runScheduleAux (w : Nat) : List Ev → List Nat × List Nat →
    Option (List Nat × List Nat)
  | [], st => some st
  | e :: tr, st => (poolStep w st e).bind (runScheduleAux w tr)

/-- A trace is a valid execution of `n` tasks on a pool of width `w`
when the scheduler accepts it from the empty state, no task is left
running, and every task below `n` has completed. -/
def validPoolSchedule (w n : Nat) (tr : List Ev) : Bool :=
  match runScheduleAux w tr ([], []) with
  | some st => st.1.isEmpty && decide (∀ i < n, i ∈ st.2)
  | none => false

/-- Maximum number of simultaneously running tasks along a trace. -/
def maxInFlightAux : List Ev → Nat → Nat → Nat
  | [], _cur, m => m
  | .start _ :: tr, cur, m => maxInFlightAux tr (cur + 1) (max m (cur + 1))
  | .finish _ :: tr, cur, m => maxInFlightAux tr (cur - 1) m

/-- Maximum number of simultaneously in-flight tasks of a trace. -/
def maxInFlight (tr : List Ev) : Nat := maxInFlightAux tr 0 0

/-- Event trace of `subsonic_get_ids` over `n` processed items
(lines 264-265): each iteration submits one `get_song_id` future and
immediately blocks on `future.result()`, so task `i` finishes before
task `i + 1` starts. -/
def subsonic_get_ids_trace (n : Nat) : List Ev :=
  (List.range n).flatMap (fun i => [.start i, .finish i])

/-- Event trace of `subsonic_scrobble` over `n` items (lines 498-500):
a plain sequential loop calling `scrobble` inline. -/
def subsonic_scrobble_trace (n : Nat) : List Ev :=
  (List.range n).flatMap (fun i => [.start i, .finish i])

/-! ## Concrete fixtures used to exercise the model -/

/-- Fixture track: the spec's end-to-end example. -/
def itemC1 : Item :=
  { title := "Yesterday", artist := "The Beatles", album := "Help!" }

/-- Fixture song with an exact title match for `itemC1`. -/
def songC1 : Song :=
  { id := "300", title := "Yesterday", artist := "The Beatles", album := "Help!" }

/-- Fixture server: the first strategy's query returns `songC1`;
every other request fails. -/
def netC1 : Request → ServerResponse := fun r =>
  match r with
  | .search3 "Yesterday" (some 20) none =>
      .ok (.search ⟨some [songC1], none⟩)
  | _ => .requestError

/-- Fixture track whose title matches a candidate only leniently. -/
def itemC4 : Item :=
  { title := "Hello World", artist := "Someone", album := "Anything" }

/-- Fixture song: a lenient (substring) but not exact match for `itemC4`. -/
def songC4 : Song :=
  { id := "401", title := "Hello World (remix)", artist := "Someone",
    album := "Anything" }

/-- Fixture server for the lenient pass: strategy one returns `songC4`,
all other requests fail. -/
def netC4 : Request → ServerResponse := fun r =>
  match r with
  | .search3 "Hello World" (some 20) none =>
      .ok (.search ⟨some [songC4], none⟩)
  | _ => .requestError

/-- Fixture track for the album fallback. -/
def itemC5 : Item :=
  { title := "Song", artist := "Someone", album := "Great" }

/-- Fixture server for the album fallback: every song search fails, the
album search returns one album whose name contains the album name, and
`getAlbum` returns one song whose title contains the track title. -/
def netC5 : Request → ServerResponse := fun r =>
  match r with
  | .search3 _ none (some 10) =>
      .ok (.search ⟨none, some [⟨"alb1", "Great Album"⟩]⟩)
  | .getAlbum "alb1" =>
      .ok (.album ⟨some [⟨"s77", "My Song Here", "Someone", "Great Album"⟩]⟩)
  | _ => .requestError

/-- Fixture server that reports remote error 70 for every request. -/
def netC7 : Request → ServerResponse := fun _ => .failed "70" "data not found"

/-- Fixture server that returns an ok envelope with an empty
`searchResult3` for every request. -/
def netC7ok : Request → ServerResponse := fun _ => .ok (.search ⟨none, none⟩)

/-- Fixture already-resolved track. -/
def itemC8 : Item :=
  { title := "Done", artist := "A", album := "B", subsonic_id := some (some "id8") }

/-- Fixture track whose title matches a candidate only after trimming
surrounding whitespace. -/
def itemC9 : Item := { title := " Hello ", artist := "", album := "" }

/-- Fixture song equal to `itemC9`'s title only after lowercasing and
trimming. -/
def songC9 : Song := { id := "id9", title := "hello", artist := "", album := "" }

/-- Fixture server for the trim asymmetry: strategy one returns `songC9`,
all other requests fail. -/
def netC9 : Request → ServerResponse := fun r =>
  match r with
  | .search3 "Hello" (some 20) none => .ok (.search ⟨some [songC9], none⟩)
  | _ => .requestError

/-- Fixture server on which every request fails. -/
def netFail : Request → ServerResponse := fun _ => .requestError

/-- Fixture unresolvable track carrying a scrobble timestamp. -/
def itemC10 : Item :=
  { title := "Ghost", artist := "Nobody", album := "Nothing",
    plex_lastviewedat := some 42 }

/-! ## Lemmas about the exact-match cascade -/

lemma scanSongs_fst (title : String) (songs : List Song) :
    (scanSongs title songs).1 =
      (songs.find? (exactMatch title)).map (fun s => s.id) := by
  induction songs with
  | nil => rfl
  | cons s rest ih =>
    by_cases h : exactMatch title s
    · simp [scanSongs, h, List.find?_cons_of_pos]
    · simp [scanSongs, h, List.find?_cons_of_neg, ih]

lemma scanSongs_snd (title : String) (songs : List Song)
    (h : (scanSongs title songs).1 = none) :
    (scanSongs title songs).2 = songs := by
  induction songs with
  | nil => rfl
  | cons s rest ih =>
    by_cases hs : exactMatch title s
    · simp [scanSongs, hs] at h
    · simp only [scanSongs, hs] at h ⊢
      simp only [Bool.false_eq_true, if_false] at h ⊢
      simpa using ih h

lemma exactPass_cons_none (net : Request → ServerResponse)
    (title q : String) (qs : List String)
    (hq : songsForQuery net q = none) :
    exactPass net title (q :: qs) =
      ((exactPass net title qs).1, (exactPass net title qs).2.1,
        mkSearchReq q :: (exactPass net title qs).2.2) := by
  simp [exactPass, hq]

lemma exactPass_cons_hit (net : Request → ServerResponse)
    (title q : String) (qs : List String) (songs : List Song) (i : String)
    (hq : songsForQuery net q = some songs)
    (hs : (scanSongs title songs).1 = some i) :
    exactPass net title (q :: qs) = (some i, [], [mkSearchReq q]) := by
  simp only [exactPass, hq]
  rcases hsc : scanSongs title songs with ⟨o, sc⟩
  rw [hsc] at hs
  simp only at hs
  subst hs
  simp

lemma exactPass_cons_nohit (net : Request → ServerResponse)
    (title q : String) (qs : List String) (songs : List Song)
    (hq : songsForQuery net q = some songs)
    (hs : (scanSongs title songs).1 = none) :
    exactPass net title (q :: qs) =
      ((exactPass net title qs).1, songs ++ (exactPass net title qs).2.1,
        mkSearchReq q :: (exactPass net title qs).2.2) := by
  have h2 := scanSongs_snd title songs hs
  simp only [exactPass, hq]
  rcases hsc : scanSongs title songs with ⟨o, sc⟩
  rw [hsc] at hs h2
  simp only at hs h2
  subst hs; subst h2
  simp

lemma exactPass_no_exact (net : Request → ServerResponse)
    (title : String) (qs : List String)
    (h : ∀ q ∈ qs, exactHit net title q = none) :
    exactPass net title qs = (none, qs.flatMap (poolOf net), qs.map mkSearchReq) := by
  induction qs with
  | nil => rfl
  | cons q qs ih =>
    have hq := h q (by simp)
    have hrest : ∀ q' ∈ qs, exactHit net title q' = none :=
      fun q' hq' => h q' (by simp [hq'])
    cases hsq : songsForQuery net q with
    | none =>
      rw [exactPass_cons_none net title q qs hsq, ih hrest]
      simp [poolOf, hsq]
    | some songs =>
      have hs : (scanSongs title songs).1 = none := by
        simpa only [exactHit, hsq] using hq
      rw [exactPass_cons_nohit net title q qs songs hsq hs, ih hrest]
      simp [poolOf, hsq]

lemma exactPass_first_hit (net : Request → ServerResponse)
    (title : String) (l1 : List String) (q : String) (l2 : List String)
    (songs : List Song) (s : Song)
    (hbefore : ∀ q' ∈ l1, exactHit net title q' = none)
    (hq : songsForQuery net q = some songs)
    (hfind : songs.find? (exactMatch title) = some s) :
    (exactPass net title (l1 ++ q :: l2)).1 = some s.id ∧
    (exactPass net title (l1 ++ q :: l2)).2.2 = (l1 ++ [q]).map mkSearchReq := by
  induction l1 with
  | nil =>
    have hs : (scanSongs title songs).1 = some s.id := by
      rw [scanSongs_fst, hfind]; rfl
    rw [List.nil_append, exactPass_cons_hit net title q l2 songs s.id hq hs]
    simp
  | cons q' l1 ih =>
    have hq' := hbefore q' (by simp)
    have hb : ∀ x ∈ l1, exactHit net title x = none :=
      fun x hx => hbefore x (by simp [hx])
    have ihr := ih hb
    cases hsq : songsForQuery net q' with
    | none =>
      rw [List.cons_append, exactPass_cons_none net title q' _ hsq]
      exact ⟨ihr.1, by simp [ihr.2]⟩
    | some songs' =>
      have hs' : (scanSongs title songs').1 = none := by
        simpa only [exactHit, hsq] using hq'
      rw [List.cons_append, exactPass_cons_nohit net title q' _ songs' hsq hs']
      exact ⟨ihr.1, by simp [ihr.2]⟩

lemma get_song_id_of_exactPass_hit (net : Request → ServerResponse)
    (item : Item) (i : String) (pool : List Song) (reqs : List Request)
    (hE : exactPass net item.title (search_strategies item) = (some i, pool, reqs)) :
    get_song_id net item = (some i, reqs) := by
  simp [get_song_id, hE]

/-- When no strategy yields an exact match, `get_song_id` runs the
lenient pass over the accumulated pool, falling back to the album search
when that pass also finds nothing. -/
lemma get_song_id_of_no_exact (net : Request → ServerResponse) (item : Item)
    (hNoExact : ∀ q ∈ search_strategies item, exactHit net item.title q = none) :
    get_song_id net item =
      (match (candidatePool net item).find? (fun s => lenientMatch item.title s) with
       | some s => (some s.id, (search_strategies item).map mkSearchReq)
       | none =>
         ((album_fallback net item).1,
          (search_strategies item).map mkSearchReq ++ (album_fallback net item).2)) := by
  have hE := exactPass_no_exact net item.title (search_strategies item) hNoExact
  simp only [get_song_id, hE, candidatePool]

lemma get_song_id_lenient (net : Request → ServerResponse) (item : Item) (s : Song)
    (hNoExact : ∀ q ∈ search_strategies item, exactHit net item.title q = none)
    (hFind : (candidatePool net item).find? (fun x => lenientMatch item.title x) = some s) :
    get_song_id net item = (some s.id, (search_strategies item).map mkSearchReq) := by
  rw [get_song_id_of_no_exact net item hNoExact, hFind]

lemma get_song_id_fallback (net : Request → ServerResponse) (item : Item)
    (hNoExact : ∀ q ∈ search_strategies item, exactHit net item.title q = none)
    (hFind : (candidatePool net item).find? (fun x => lenientMatch item.title x) = none) :
    get_song_id net item =
      ((album_fallback net item).1,
       (search_strategies item).map mkSearchReq ++ (album_fallback net item).2) := by
  rw [get_song_id_of_no_exact net item hNoExact, hFind]

/-! ## String lemmas for the lenient pass -/

lemma listPrefix_self (l : List Char) : listPrefix l l = true := by
  induction l with
  | nil => rfl
  | cons a as ih => simp [listPrefix, ih]

lemma listInfix_self (l : List Char) : listInfix l l = true := by
  cases l with
  | nil => rfl
  | cons a as => simp [listInfix, listPrefix_self]

lemma pyIn_self (s : String) : pyIn s s = true := by
  simp [pyIn, listInfix_self]

lemma lenientMatch_of_trim_eq (title : String) (s : Song)
    (h : pyStrip (pyLower title) = pyStrip (pyLower s.title)) :
    lenientMatch title s = true := by
  simp [lenientMatch, h, pyIn_self]

lemma exactMatch_eq_false_of_ne (title : String) (s : Song)
    (h : pyLower title ≠ pyLower s.title) :
    exactMatch title s = false := by
  simpa [exactMatch] using h

/-! ## Oracle congruences (error 70 behaves like an empty result) -/

lemma songsForQuery_congr (net net' : Request → ServerResponse)
    (h : ∀ q, songsForQuery net q = songsForQuery net' q)
    (title : String) (qs : List String) :
    exactPass net title qs = exactPass net' title qs := by
  induction qs with
  | nil => rfl
  | cons q qs ih => simp only [exactPass, h q, ih]

lemma album_fallback_congr (net net' : Request → ServerResponse) (item : Item)
    (ha : ∀ q, albumsForQuery net q = albumsForQuery net' q)
    (hal : ∀ a, albumSongs net a = albumSongs net' a) :
    album_fallback net item = album_fallback net' item := by
  simp only [album_fallback, get_album_id_by_name, find_song_in_album, ha, hal]

lemma get_song_id_congr (net net' : Request → ServerResponse) (item : Item)
    (hs : ∀ q, songsForQuery net q = songsForQuery net' q)
    (ha : ∀ q, albumsForQuery net q = albumsForQuery net' q)
    (hal : ∀ a, albumSongs net a = albumSongs net' a) :
    get_song_id net item = get_song_id net' item := by
  simp only [get_song_id, songsForQuery_congr net net' hs,
    album_fallback_congr net net' item ha hal]

/-- Pointwise relation between two oracles: `net'` replaces some
error-70 responses of `net` by an ok envelope whose `searchResult3`
carries neither songs nor albums. -/
def sim70 (net net' : Request → ServerResponse) : Prop :=
  ∀ r, net' r = net r ∨
    ((∃ m, net r = .failed "70" m) ∧ net' r = .ok (.search ⟨none, none⟩))

lemma extract_eq_of_sim70 (net net' : Request → ServerResponse)
    (h : sim70 net net') :
    (∀ q, songsForQuery net q = songsForQuery net' q) ∧
    (∀ q, albumsForQuery net q = albumsForQuery net' q) ∧
    (∀ a, albumSongs net a = albumSongs net' a) := by
  refine ⟨fun q => ?_, fun q => ?_, fun a => ?_⟩
  · rcases h (mkSearchReq q) with heq | ⟨⟨m, h70⟩, hok⟩
    · simp [songsForQuery, body, heq]
    · simp [songsForQuery, body, h70, hok, send_request]
  · rcases h (.search3 q none (some 10)) with heq | ⟨⟨m, h70⟩, hok⟩
    · simp [albumsForQuery, body, heq]
    · simp [albumsForQuery, body, h70, hok, send_request]
  · rcases h (.getAlbum a) with heq | ⟨⟨m, h70⟩, hok⟩
    · simp [albumSongs, body, heq]
    · simp [albumSongs, body, h70, hok, send_request]

/-! ## Pool-scheduler lemmas -/

lemma poolStep_start_cases (w : Nat) (run done : List Nat) (i : Nat)
    (st1 : List Nat × List Nat)
    (h : poolStep w (run, done) (.start i) = some st1) :
    st1 = (i :: run, done) ∧ run.length + 1 ≤ w := by
  simp only [poolStep] at h
  split at h
  · cases h
  · split at h
    · cases h; exact ⟨rfl, by assumption⟩
    · cases h

lemma poolStep_finish_cases (w : Nat) (run done : List Nat) (i : Nat)
    (st1 : List Nat × List Nat)
    (h : poolStep w (run, done) (.finish i) = some st1) :
    st1 = (run.erase i, i :: done) ∧ i ∈ run := by
  simp only [poolStep] at h
  split at h
  · cases h; exact ⟨rfl, by assumption⟩
  · cases h

lemma maxInFlightAux_le (w : Nat) (tr : List Ev) :
    ∀ (run done : List Nat) (st' : List Nat × List Nat) (m : Nat),
      runScheduleAux w tr (run, done) = some st' →
      maxInFlightAux tr run.length m ≤ max m w := by
  induction tr with
  | nil =>
    intro run done st' m _
    simp [maxInFlightAux]
  | cons e tr ih =>
    intro run done st' m hrun
    simp only [runScheduleAux] at hrun
    cases hps : poolStep w (run, done) e with
    | none => rw [hps] at hrun; simp at hrun
    | some st1 =>
      rw [hps] at hrun
      simp only [Option.some_bind] at hrun
      cases e with
      | start i =>
        obtain ⟨rfl, hlen⟩ := poolStep_start_cases w run done i st1 hps
        have hrec := ih (i :: run) done st' (max m (run.length + 1)) hrun
        simp only [List.length_cons] at hrec
        simp only [maxInFlightAux]
        omega
      | finish i =>
        obtain ⟨rfl, hmem⟩ := poolStep_finish_cases w run done i st1 hps
        have hrec := ih (run.erase i) (i :: done) st' m hrun
        rw [List.length_erase_of_mem hmem] at hrec
        simpa [maxInFlightAux] using hrec

lemma runScheduleAux_done (w : Nat) (tr : List Ev) :
    ∀ (run done : List Nat) (st' : List Nat × List Nat),
      runScheduleAux w tr (run, done) = some st' →
      ∀ i ∈ st'.2, i ∈ done ∨ Ev.finish i ∈ tr := by
  induction tr with
  | nil =>
    intro run done st' hrun i hi
    simp only [runScheduleAux] at hrun
    cases hrun
    exact Or.inl hi
  | cons e tr ih =>
    intro run done st' hrun i hi
    simp only [runScheduleAux] at hrun
    cases hps : poolStep w (run, done) e with
    | none => rw [hps] at hrun; simp at hrun
    | some st1 =>
      rw [hps] at hrun
      simp only [Option.some_bind] at hrun
      cases e with
      | start j =>
        obtain ⟨rfl, _⟩ := poolStep_start_cases w run done j st1 hps
        rcases ih (j :: run) done st' hrun i hi with h0 | hf
        · exact Or.inl h0
        · exact Or.inr (List.mem_cons_of_mem _ hf)
      | finish j =>
        obtain ⟨rfl, _⟩ := poolStep_finish_cases w run done j st1 hps
        rcases ih (run.erase j) (j :: done) st' hrun i hi with h0 | hf
        · rcases List.mem_cons.mp h0 with rfl | h0'
          · exact Or.inr (List.mem_cons_self _ _)
          · exact Or.inl h0'
        · exact Or.inr (List.mem_cons_of_mem _ hf)

lemma validPoolSchedule_spec (w n : Nat) (tr : List Ev)
    (h : validPoolSchedule w n tr = true) :
    maxInFlight tr ≤ w ∧ ∀ i < n, Ev.finish i ∈ tr := by
  unfold validPoolSchedule at h
  cases hrun : runScheduleAux w tr ([], []) with
  | none => rw [hrun] at h; simp at h
  | some st =>
    rw [hrun] at h
    simp only [Bool.and_eq_true, decide_eq_true_eq] at h
    obtain ⟨hempty, hdone⟩ := h
    constructor
    · have hb := maxInFlightAux_le w tr [] [] st 0 hrun
      simp only [List.length_nil] at hb
      have : max 0 w = w := by omega
      rw [this] at hb
      exact hb
    · intro i hi
      rcases runScheduleAux_done w tr [] [] st hrun i (hdone i hi) with h0 | hf
      · simp at h0
      · exact hf

lemma runScheduleAux_append (w : Nat) (t1 t2 : List Ev) :
    ∀ st, runScheduleAux w (t1 ++ t2) st =
      (runScheduleAux w t1 st).bind (runScheduleAux w t2) := by
  induction t1 with
  | nil => intro st; rfl
  | cons e t1 ih =>
    intro st
    simp only [List.cons_append, runScheduleAux]
    cases poolStep w st e with
    | none => rfl
    | some st1 => exact ih st1

lemma seq_trace_run (n : Nat) :
    runScheduleAux 1 (subsonic_get_ids_trace n) ([], []) =
      some ([], (List.range n).reverse) := by
  induction n with
  | zero => rfl
  | succ n ih =>
    have hsplit : subsonic_get_ids_trace (n + 1) =
        subsonic_get_ids_trace n ++ [.start n, .finish n] := by
      simp [subsonic_get_ids_trace, List.range_succ]
    rw [hsplit, runScheduleAux_append, ih]
    simp [runScheduleAux, poolStep, List.range_succ]

lemma seq_trace_valid (n : Nat) :
    validPoolSchedule 1 n (subsonic_get_ids_trace n) = true := by
  unfold validPoolSchedule
  rw [seq_trace_run n]
  simp

/-! ## Batch-operation lemmas -/

lemma subsonic_get_ids_mem_isSome (net : Request → ServerResponse)
    (items : List Item) (force : Bool) :
    ∀ it ∈ (subsonic_get_ids net items force).1, it.subsonic_id.isSome := by
  induction items with
  | nil => simp [subsonic_get_ids]
  | cons a rest ih =>
    intro it hit
    by_cases h : (!force && a.subsonic_id.isSome) = true
    · simp only [subsonic_get_ids, h, if_pos] at hit
      rcases List.mem_cons.mp hit with rfl | h2
      · exact (Bool.and_eq_true _ _).mp h |>.2
      · exact ih it h2
    · simp only [subsonic_get_ids, h, if_neg, Bool.false_eq_true,
        not_false_eq_true] at hit
      rcases List.mem_cons.mp hit with rfl | h2
      · simp
      · exact ih it h2

lemma subsonic_get_ids_skip_all (net : Request → ServerResponse)
    (items : List Item) (h : ∀ it ∈ items, it.subsonic_id.isSome) :
    subsonic_get_ids net items false = (items, []) := by
  induction items with
  | nil => rfl
  | cons a rest ih =>
    have ha : a.subsonic_id.isSome := h a (by simp)
    have hrest := ih (fun it hit => h it (by simp [hit]))
    simp [subsonic_get_ids, hrest, ha]

lemma sum_skip_count (f : Item → Nat) (p : Item → Bool) (l : List Item)
    (hf : ∀ it, f it = if p it then 0 else 1) :
    (l.map f).sum = (l.filter (fun it => !p it)).length := by
  induction l with
  | nil => rfl
  | cons a rest ih =>
    by_cases h : p a <;>
      simp [hf, h, ih, Nat.add_comm, List.filter_cons]

lemma subsonic_get_ids_authCalls_eq (items : List Item) (force : Bool) :
    subsonic_get_ids_authCalls items force =
      (items.filter (fun it => force || it.subsonic_id.isNone)).length := by
  have h := sum_skip_count
    (fun it => if !force && it.subsonic_id.isSome then 0 else get_song_id_authCalls)
    (fun it => !force && it.subsonic_id.isSome) items
    (fun it => by cases hf : (!force && it.subsonic_id.isSome) <;>
      simp [hf, get_song_id_authCalls])
  rw [subsonic_get_ids_authCalls, h]
  congr 1
  apply List.filter_congr
  intro it _
  cases force <;> cases h : it.subsonic_id <;> simp [h]

lemma subsonic_add_rating_authCalls_eq (items : List Item) :
    subsonic_add_rating_authCalls items =
      1 + (items.filter (fun it => (flexGetId it).isNone)).length := by
  have h := sum_skip_count update_rating_authCalls
    (fun it => (flexGetId it).isSome) items
    (fun it => by
      cases hj : flexGetId it <;>
        simp [update_rating_authCalls, get_song_id_authCalls, hj])
  rw [subsonic_add_rating_authCalls, h]
  congr 2
  apply List.filter_congr
  intro it _
  cases h : flexGetId it <;> simp [h]

lemma subsonic_scrobble_authCalls_eq (items : List Item) :
    subsonic_scrobble_authCalls items =
      1 + (items.filter (fun it => it.subsonic_id.isNone)).length := by
  have h := sum_skip_count scrobble_authCalls
    (fun it => it.subsonic_id.isSome) items
    (fun it => by
      unfold scrobble_authCalls get_song_id_authCalls
      cases hj : it.subsonic_id <;> simp [hj])
  rw [subsonic_scrobble_authCalls, h]
  congr 2
  apply List.filter_congr
  intro it _
  cases h : it.subsonic_id <;> simp [h]

/-! ## Claims -/

/-- C1: `get_song_id` issues the search queries in the fixed order
unquoted title, quoted title, title + album, normalized artist + title,
album only, each with `songCount = 20`, and returns the id of the first
candidate — in strategy order, then result order — whose title equals
the track's title case-insensitively, without issuing any later
strategy's query. -/
theorem C1_exact_cascade (net : Request → ServerResponse) (item : Item)
    (l1 : List String) (q : String) (l2 : List String)
    (songs : List Song) (s : Song)
    (hsplit : search_strategies item = l1 ++ q :: l2)
    (hbefore : ∀ x ∈ l1, exactHit net item.title x = none)
    (hq : songsForQuery net q = some songs)
    (hfind : songs.find? (exactMatch item.title) = some s) :
    search_strategies item =
      [ pyStrip item.title
      , "\"" ++ pyStrip item.title ++ "\""
      , pyStrip item.title ++ " " ++ pyStrip item.album
      , pyStrip (normalizeArtist item.artist) ++ " " ++ pyStrip item.title
      , pyStrip item.album ] ∧
    get_song_id net item = (some s.id, (l1 ++ [q]).map mkSearchReq) := by
  constructor
  · rfl
  · have h := exactPass_first_hit net item.title l1 q l2 songs s hbefore hq hfind
    rcases hE : exactPass net item.title (l1 ++ q :: l2) with ⟨o, pool, reqs⟩
    rw [hE] at h
    obtain ⟨h1, h2⟩ := h
    simp only at h1 h2
    subst h1
    have hgs := get_song_id_of_exactPass_hit net item s.id pool reqs
      (by rw [hsplit]; exact hE)
    rw [hgs, h2]

theorem C1_exact_cascade_witness :
    get_song_id netC1 itemC1 = (some "300", [mkSearchReq "Yesterday"]) := by
  have h := C1_exact_cascade netC1 itemC1 []
    "Yesterday"
    ["\"Yesterday\"", "Yesterday Help!", "The Beatles Yesterday", "Help!"]
    [songC1] songC1 (by decide) (by simp) (by decide) (by decide)
  exact h.2

/-- C4: when no strategy produced an exact match, `get_song_id` returns
the id of the first candidate of the accumulated pool (strategy order
preserved, then result order) whose normalized title is a substring of
the normalized track title or vice versa, and when no candidate matches,
the lenient pass yields nothing and the album fallback alone decides the
result. -/
theorem C4_lenient_pass (net : Request → ServerResponse) (item : Item)
    (hNoExact : ∀ q ∈ search_strategies item, exactHit net item.title q = none) :
    (∀ s : Song,
      (candidatePool net item).find? (fun x => lenientMatch item.title x) = some s →
      get_song_id net item = (some s.id, (search_strategies item).map mkSearchReq)) ∧
    ((candidatePool net item).find? (fun x => lenientMatch item.title x) = none →
      get_song_id net item =
        ((album_fallback net item).1,
         (search_strategies item).map mkSearchReq ++ (album_fallback net item).2)) :=
  ⟨fun s hF => get_song_id_lenient net item s hNoExact hF,
   fun hF => get_song_id_fallback net item hNoExact hF⟩

theorem C4_lenient_pass_witness :
    get_song_id netC4 itemC4 =
      (some "401", (search_strategies itemC4).map mkSearchReq) :=
  (C4_lenient_pass netC4 itemC4 (by decide)).1 songC4 (by decide)

/-- C5: for a track unresolved by the exact and lenient passes, the album
fallback searches albums by the track's album name with
`albumCount = 10`, takes the first returned album whose name contains
the album name case-insensitively, fetches that album's song listing and
returns the id of the first song whose title contains the track title as
a case-insensitive substring; whenever a step yields nothing the
fallback, and hence `get_song_id`, returns no match. -/
theorem C5_album_fallback (net : Request → ServerResponse) (item : Item)
    (hNoExact : ∀ q ∈ search_strategies item, exactHit net item.title q = none)
    (hNoLenient :
      (candidatePool net item).find? (fun x => lenientMatch item.title x) = none) :
    (get_song_id net item).1 = (album_fallback net item).1 ∧
    (∀ q a_name, get_album_id_by_name net q a_name =
      ((match albumsForQuery net q with
        | none => none
        | some albums =>
          (albums.find? (fun a => pyIn (pyLower q) (pyLower a.name))).map
            (fun a => a.id)),
       [Request.search3 q none (some 10)])) ∧
    (∀ aid t, find_song_in_album net aid t =
      ((match albumSongs net aid with
        | none => none
        | some songs =>
          (songs.find? (fun s => pyIn (pyLower t) (pyLower s.title))).map
            (fun s => s.id)),
       [Request.getAlbum aid])) ∧
    ((album_fallback net item).1 =
      match (get_album_id_by_name net item.album (normalizeArtist item.artist)).1 with
      | none => none
      | some aid =>
        if aid.isEmpty then none
        else
          match (find_song_in_album net aid item.title).1 with
          | none => none
          | some sid => if sid.isEmpty then none else some sid) := by
  refine ⟨?_, fun q a_name => rfl, fun aid t => rfl, ?_⟩
  · rw [get_song_id_fallback net item hNoExact hNoLenient]
  · simp only [album_fallback]
    cases hA : (get_album_id_by_name net item.album (normalizeArtist item.artist)).1 with
    | none => simp [pyTruthy, hA]
    | some aid =>
      by_cases he : aid.isEmpty
      · simp [pyTruthy, hA, he]
      · cases hS : (find_song_in_album net aid item.title).1 with
        | none => simp [pyTruthy, hA, he, hS]
        | some sid =>
          by_cases hse : sid.isEmpty
          · simp [pyTruthy, hA, he, hS, hse]
          · simp [pyTruthy, hA, he, hS, hse]

theorem C5_album_fallback_witness :
    (get_song_id netC5 itemC5).1 = (album_fallback netC5 itemC5).1 ∧
    (get_song_id netC5 itemC5).1 = some "s77" :=
  ⟨(C5_album_fallback netC5 itemC5 (by decide) (by decide)).1,
   ((C5_album_fallback netC5 itemC5 (by decide) (by decide)).1).trans (by decide)⟩

/-- C2 as stated is false on the code: a batch resolve over two fresh
items authenticates twice — once inside each item's `get_song_id` — with
no batch-level credential built up front. -/
theorem C2_counterexample :
    subsonic_get_ids_authCalls
      [{ title := "a", artist := "b", album := "c" },
       { title := "d", artist := "e", album := "f" }] false = 2 ∧
    (2 : Nat) ≠ 1 :=
  ⟨rfl, by decide⟩

/-- C2 amended: `subsonic_add_rating` and `subsonic_scrobble` build one
credential up front and reuse it for their direct per-item requests,
but every item that falls back to `get_song_id` triggers one extra
authentication; `subsonic_get_ids` builds no batch credential at all —
each non-skipped item authenticates once inside `get_song_id` (whose
strategy-internal calls do reuse that single per-item credential). -/
theorem C2_auth_per_operation (items : List Item) (force : Bool) :
    subsonic_get_ids_authCalls items force =
      (items.filter (fun it => force || it.subsonic_id.isNone)).length ∧
    subsonic_add_rating_authCalls items =
      1 + (items.filter (fun it => (flexGetId it).isNone)).length ∧
    subsonic_scrobble_authCalls items =
      1 + (items.filter (fun it => it.subsonic_id.isNone)).length ∧
    get_song_id_authCalls = 1 :=
  ⟨subsonic_get_ids_authCalls_eq items force,
   subsonic_add_rating_authCalls_eq items,
   subsonic_scrobble_authCalls_eq items,
   rfl⟩

/-- C3 as stated is false on the code: `subsonic_scrobble` runs its
per-item work in a plain sequential loop with no worker pool at all
(lines 489-501 create no executor). -/
theorem C3_counterexample :
    poolWidth BatchOp.pushScrobbles = none ∧
    poolWidth BatchOp.pushScrobbles ≠ some MAX_WORKERS :=
  ⟨rfl, by decide⟩

/-- C3 amended: `subsonic_get_ids` and `subsonic_add_rating` enter a
worker pool of width `MAX_WORKERS = 3` while `subsonic_scrobble` uses
none; any schedule of the pool keeps at most `MAX_WORKERS` tasks in
flight and completes all `n` submitted tasks, and the traces of
`subsonic_get_ids` (which awaits each future immediately) and of
`subsonic_scrobble` (inline calls) never exceed one task in flight while
still completing all `n` tasks. -/
theorem C3_bounded_concurrency (n : Nat) (tr : List Ev)
    (h : validPoolSchedule MAX_WORKERS n tr = true) :
    poolWidth BatchOp.resolveIds = some MAX_WORKERS ∧
    poolWidth BatchOp.pushRatings = some MAX_WORKERS ∧
    poolWidth BatchOp.pushScrobbles = none ∧
    MAX_WORKERS = 3 ∧
    maxInFlight tr ≤ MAX_WORKERS ∧
    (∀ i < n, Ev.finish i ∈ tr) ∧
    validPoolSchedule 1 n (subsonic_get_ids_trace n) = true ∧
    maxInFlight (subsonic_get_ids_trace n) ≤ 1 ∧
    validPoolSchedule 1 n (subsonic_scrobble_trace n) = true ∧
    maxInFlight (subsonic_scrobble_trace n) ≤ 1 ∧
    (∀ i < n, Ev.finish i ∈ subsonic_get_ids_trace n) ∧
    (∀ i < n, Ev.finish i ∈ subsonic_scrobble_trace n) := by
  have hpool := validPoolSchedule_spec MAX_WORKERS n tr h
  have hseq := validPoolSchedule_spec 1 n (subsonic_get_ids_trace n)
    (seq_trace_valid n)
  exact ⟨rfl, rfl, rfl, rfl, hpool.1, hpool.2,
    seq_trace_valid n, hseq.1, seq_trace_valid n, hseq.1, hseq.2, hseq.2⟩

theorem C3_bounded_concurrency_witness :
    poolWidth BatchOp.resolveIds = some MAX_WORKERS ∧
    poolWidth BatchOp.pushRatings = some MAX_WORKERS ∧
    poolWidth BatchOp.pushScrobbles = none ∧
    MAX_WORKERS = 3 ∧
    maxInFlight [Ev.start 0, Ev.start 1, Ev.finish 1, Ev.finish 0] ≤ MAX_WORKERS ∧
    (∀ i < 2, Ev.finish i ∈ [Ev.start 0, Ev.start 1, Ev.finish 1, Ev.finish 0]) ∧
    validPoolSchedule 1 2 (subsonic_get_ids_trace 2) = true ∧
    maxInFlight (subsonic_get_ids_trace 2) ≤ 1 ∧
    validPoolSchedule 1 2 (subsonic_scrobble_trace 2) = true ∧
    maxInFlight (subsonic_scrobble_trace 2) ≤ 1 ∧
    (∀ i < 2, Ev.finish i ∈ subsonic_get_ids_trace 2) ∧
    (∀ i < 2, Ev.finish i ∈ subsonic_scrobble_trace 2) :=
  C3_bounded_concurrency 2 [Ev.start 0, Ev.start 1, Ev.finish 1, Ev.finish 0]
    (by decide)

lemma transform_rating_plex (r : ℚ) :
    transform_rating r "plex_userrating" = pythonRound (r / 2) := by
  simp [transform_rating]

lemma transform_rating_spotify (r : ℚ) :
    transform_rating r "spotify_track_popularity" =
      (if r < 1666/100 then 0 else if r < 3333/100 then 1
       else if r < 50 then 2 else if r < 6666/100 then 3
       else if r < 8333/100 then 4 else 5) := by
  unfold transform_rating
  rw [if_neg (by decide), if_pos rfl]

lemma pythonRound_five : pythonRound 5 = 5 := by
  unfold pythonRound
  norm_num

/-- C6: `transform_rating` maps a `plex_userrating` value `r` to
`round(r / 2)` under Python's round-half-to-even (so 10 maps to 5),
buckets a `spotify_track_popularity` value into 0-5 with each exact
threshold landing in the upper bucket (so 20 maps to 1), and truncates
any other rating field's value to an integer. -/
theorem C6_transform_rating (r : ℚ) (field : String)
    (h1 : field ≠ "plex_userrating")
    (h2 : field ≠ "spotify_track_popularity") :
    transform_rating r "plex_userrating" = pythonRound (r / 2) ∧
    transform_rating 10 "plex_userrating" = 5 ∧
    transform_rating 20 "spotify_track_popularity" = 1 ∧
    (transform_rating (1665/100) "spotify_track_popularity" = 0 ∧
     transform_rating (1666/100) "spotify_track_popularity" = 1 ∧
     transform_rating (3332/100) "spotify_track_popularity" = 1 ∧
     transform_rating (3333/100) "spotify_track_popularity" = 2 ∧
     transform_rating (4999/100) "spotify_track_popularity" = 2 ∧
     transform_rating 50 "spotify_track_popularity" = 3 ∧
     transform_rating (6665/100) "spotify_track_popularity" = 3 ∧
     transform_rating (6666/100) "spotify_track_popularity" = 4 ∧
     transform_rating (8332/100) "spotify_track_popularity" = 4 ∧
     transform_rating (8333/100) "spotify_track_popularity" = 5) ∧
    transform_rating r field = pyInt r := by
  refine ⟨transform_rating_plex r,
    by rw [transform_rating_plex, show (10 : ℚ) / 2 = 5 by norm_num]
       exact pythonRound_five,
    by rw [transform_rating_spotify]; norm_num,
    ⟨by rw [transform_rating_spotify]; norm_num,
     by rw [transform_rating_spotify]; norm_num,
     by rw [transform_rating_spotify]; norm_num,
     by rw [transform_rating_spotify]; norm_num,
     by rw [transform_rating_spotify]; norm_num,
     by rw [transform_rating_spotify]; norm_num,
     by rw [transform_rating_spotify]; norm_num,
     by rw [transform_rating_spotify]; norm_num,
     by rw [transform_rating_spotify]; norm_num,
     by rw [transform_rating_spotify]; norm_num⟩, ?_⟩
  simp [transform_rating, h1, h2]

theorem C6_transform_rating_witness :
    transform_rating (7/2) "rating" = pyInt (7/2) :=
  (C6_transform_rating (7/2) "rating" (by decide) (by decide)).2.2.2.2

/-- C7: a failed envelope with error code 70 surfaces as a no-result
outcome logged at warning severity, strictly lower than the error
severity used for any other error code, and the resolution cascade under
a server answering error 70 behaves exactly as under a server answering
an ok envelope with no results. -/
theorem C7_error70 (m c : String) (net net2 : Request → ServerResponse)
    (item : Item) (hc : c ≠ "70") (hsim : sim70 net net2) :
    send_request (.failed "70" m) = (none, [Severity.warning]) ∧
    send_request (.failed c m) = (none, [Severity.error]) ∧
    sevRank Severity.warning < sevRank Severity.error ∧
    get_song_id net item = get_song_id net2 item := by
  obtain ⟨hs, ha, hal⟩ := extract_eq_of_sim70 net net2 hsim
  refine ⟨rfl, by simp [send_request, hc], by decide, ?_⟩
  exact get_song_id_congr net net2 item hs ha hal

theorem C7_error70_witness :
    send_request (.failed "70" "x") = (none, [Severity.warning]) ∧
    send_request (.failed "40" "x") = (none, [Severity.error]) ∧
    sevRank Severity.warning < sevRank Severity.error ∧
    get_song_id netC7 itemC1 = get_song_id netC7ok itemC1 :=
  C7_error70 "x" "40" netC7 netC7ok itemC1 (by decide)
    (fun r => Or.inr ⟨⟨"data not found", rfl⟩, rfl⟩)

/-- C8: with `force = false` an already-resolved item is skipped — zero
network requests are issued for it and its stored identifier is
unchanged — and a second batch resolve with `force = false` after any
first run issues no requests at all and leaves every item unchanged. -/
theorem C8_idempotent (net net2 : Request → ServerResponse)
    (item : Item) (v : Option String) (items : List Item) (force : Bool)
    (h : item.subsonic_id = some v) :
    subsonic_get_ids net [item] false = ([item], []) ∧
    subsonic_get_ids net2 (subsonic_get_ids net items force).1 false =
      ((subsonic_get_ids net items force).1, []) := by
  constructor
  · refine subsonic_get_ids_skip_all net [item] ?_
    intro it hit
    rcases List.mem_singleton.mp hit with rfl
    rw [h]; rfl
  · exact subsonic_get_ids_skip_all net2 _
      (subsonic_get_ids_mem_isSome net items force)

theorem C8_idempotent_witness :
    subsonic_get_ids netC1 [itemC8] false = ([itemC8], []) ∧
    subsonic_get_ids netC1 (subsonic_get_ids netC1 [itemC8] true).1 false =
      ((subsonic_get_ids netC1 [itemC8] true).1, []) :=
  C8_idempotent netC1 netC1 itemC8 (some "id8") [itemC8] true rfl

/-- C9: the exact pass compares lowercased titles without trimming while
the lenient pass trims; a candidate whose title equals the track title
only after stripping surrounding whitespace is not an exact match yet is
a lenient match, so `get_song_id` issues all five strategy queries and
then returns that candidate's id when it is the pool's first lenient
match. -/
theorem C9_trim_asymmetry (net : Request → ServerResponse)
    (item : Item) (s : Song)
    (hNoExact : ∀ q ∈ search_strategies item, exactHit net item.title q = none)
    (hFind : (candidatePool net item).find? (fun x => lenientMatch item.title x)
      = some s)
    (hneq : pyLower item.title ≠ pyLower s.title)
    (htrim : pyStrip (pyLower item.title) = pyStrip (pyLower s.title)) :
    exactMatch item.title s = false ∧
    lenientMatch item.title s = true ∧
    get_song_id net item = (some s.id, (search_strategies item).map mkSearchReq) :=
  ⟨exactMatch_eq_false_of_ne item.title s hneq,
   lenientMatch_of_trim_eq item.title s htrim,
   get_song_id_lenient net item s hNoExact hFind⟩

theorem C9_trim_asymmetry_witness :
    exactMatch itemC9.title songC9 = false ∧
    lenientMatch itemC9.title songC9 = true ∧
    get_song_id netC9 itemC9 =
      (some "id9", (search_strategies itemC9).map mkSearchReq) :=
  C9_trim_asymmetry netC9 itemC9 songC9 (by decide) (by decide)
    (by decide) (by decide)

/-- C10: an item without a stored `subsonic_id` whose resolution cascade
finds no match is not skipped by `scrobble`: when a last-played
timestamp is present the scrobble request is still sent with the id
parameter set to `None`; the item is skipped before sending only when
the timestamp is absent. -/
theorem C10_scrobble_null_id (net : Request → ServerResponse) (item : Item)
    (hAbsent : item.subsonic_id = none)
    (hNoMatch : (get_song_id net item).1 = none) :
    (∀ t, item.plex_lastviewedat = some t →
      scrobble net item = some ⟨none, pyInt t * 1000⟩) ∧
    (item.plex_lastviewedat = none → scrobble net item = none) := by
  constructor
  · intro t ht
    simp [scrobble, hAbsent, hNoMatch, ht]
  · intro ht
    simp [scrobble, hAbsent, ht]

theorem C10_scrobble_null_id_witness :
    scrobble netFail itemC10 = some ⟨none, pyInt 42 * 1000⟩ :=
  (C10_scrobble_null_id netFail itemC10 rfl (by decide)).1 42 rfl

end Subsonic
